import Mathlib

/-!
Verification development for the quadruped balance controller
(`balance_controller.cpp`, namespace `quadruped_controller`).

The controller is embedded shallowly over `ℚ`:
* `arma::vec` / `arma::mat` become functions out of `Fin n` and
  Mathlib matrices over `ℚ`;
* `arma` submatrix / subvector assignment (`X.submat(...) = B`,
  `v.rows(a, b) = w`) becomes the explicit overwrite helpers
  `setBlock` / `setRows`;
* `std::map::at` (which throws on a missing key) becomes an
  `Option`-valued lookup, `none` on a missing key;
* the external qpOASES solver is a black box: its per-cycle observable
  behaviour (initialised flag, return codes, solved flag, primal
  solution) is a parameter of `control`.
-/

namespace QuadrupedController

open Matrix

abbrev V3 := Fin 3 → ℚ

abbrev Mat3 := Matrix (Fin 3) (Fin 3) ℚ

/-- Contact state of a leg.  Modelled from the spec: the `LegState`
enum is declared in a gait header that is not part of the controller
source file; the spec documents the binary pair stance/swing.  The
constructor `extra` stands in for any further enumerator the header
might carry, since `frictionConeBounds` only ever compares a state
with `swing`. -/
inductive LegState
  | stance
  | swing
  | extra
deriving DecidableEq

/-- `GaitMap`: mapping from leg name to a `(LegState, phase)` pair;
`gait_map.at(name)` throws on a missing key, embedded as an
`Option`-valued lookup returning `none`. -/
abbrev GaitMap := String → Option (LegState × ℚ)

/-- `M.submat(r, c, r+p-1, c+q-1) = B`: overwrite the `p × q` block of
`M` whose top-left corner is `(r, c)` with `B`, leaving all other
entries unchanged. -/
def setBlock {m n p q : ℕ} (M : Matrix (Fin m) (Fin n) ℚ) (r c : ℕ)
    (B : Matrix (Fin p) (Fin q) ℚ) : Matrix (Fin m) (Fin n) ℚ :=
  Matrix.of fun i j =>
    if h : r ≤ (i : ℕ) ∧ (i : ℕ) < r + p ∧ c ≤ (j : ℕ) ∧ (j : ℕ) < c + q then
      B ⟨(i : ℕ) - r, by omega⟩ ⟨(j : ℕ) - c, by omega⟩
    else M i j

/-- `v.rows(r, r+p-1) = w`: overwrite `p` consecutive entries of `v`
starting at index `r` with `w`, leaving the other entries unchanged. -/
def setRows {n p : ℕ} (v : Fin n → ℚ) (r : ℕ) (w : Fin p → ℚ) : Fin n → ℚ :=
  fun i =>
    if h : r ≤ (i : ℕ) ∧ (i : ℕ) < r + p then w ⟨(i : ℕ) - r, by omega⟩
    else v i

/-- Modelled from the spec: `skew_symmetric` lives in the repository's
math utilities, outside the controller source file; the spec calls it
"the skew-symmetric cross-product matrix" of a 3-vector. -/
def skew_symmetric (v : V3) : Mat3 :=
  Matrix.of ![![0, -v 2, v 1], ![v 2, 0, -v 0], ![-v 1, v 0, 0]]

/-- The 5×3 friction-cone block `Cf` of `frictionConeConstraint`:
rows are the combinations `fx − μ·fz`, `fy − μ·fz`, `fy + μ·fz`,
`fx + μ·fz`, `fz`. -/
def Cf (mu : ℚ) : Matrix (Fin 5) (Fin 3) ℚ :=
  Matrix.of ![![1, 0, -mu], ![0, 1, -mu], ![0, 1, mu], ![1, 0, mu], ![0, 0, 1]]

/-- `BalanceController::frictionConeConstraint`: the 20×12 constraint
matrix, zero except for a copy of `Cf` at rows `5k..5k+4`, columns
`3k..3k+2` for each foot `k`. -/
def frictionConeConstraint (mu : ℚ) : Matrix (Fin 20) (Fin 12) ℚ :=
  setBlock (setBlock (setBlock (setBlock 0 0 0 (Cf mu)) 5 3 (Cf mu)) 10 6 (Cf mu))
    15 9 (Cf mu)

/-- `BalanceController::frictionConeBounds`: walk the configured leg
names in order; for each leg look its contact state up in the gait map
(`.at`, which fails on a missing key — hence the `Option` result), and
emit the 5-row bound block: all zeros for a swing leg, the stance
block `(−10⁶, −10⁶, 0, 0, fzmin)` / `(0, 0, 10⁶, 10⁶, fzmax)`
otherwise. -/
def frictionConeBounds (gait_map : GaitMap) (fzmin fzmax : ℚ) :
    List String → Option (List ℚ × List ℚ)
  | [] => some ([], [])
  | leg_name :: rest =>
    match gait_map leg_name with
    | none => none
    | some entry =>
      match frictionConeBounds gait_map fzmin fzmax rest with
      | none => none
      | some (lbC, ubC) =>
        if entry.1 = LegState.swing then
          some ([0, 0, 0, 0, 0] ++ lbC, [0, 0, 0, 0, 0] ++ ubC)
        else
          some ([-1000000, -1000000, 0, 0, fzmin] ++ lbC,
                [0, 0, 1000000, 1000000, fzmax] ++ ubC)

/-- The member data of `BalanceController` fixed by its constructor.
`C_` is the friction-cone constraint matrix computed once at
construction (`C_(frictionConeConstraint())` in the initializer
list). -/
structure BalanceController where
  mu_ : ℚ
  mass_ : ℚ
  Ib_ : Mat3
  g_ : V3
  kff_ : Fin 6 → ℚ
  kp_p_ : V3
  kd_p_ : V3
  kp_w_ : V3
  kd_w_ : V3
  fzmin_ : ℚ
  fzmax_ : ℚ
  S_ : Matrix (Fin 6) (Fin 6) ℚ
  W_ : Matrix (Fin 12) (Fin 12) ℚ
  C_ : Matrix (Fin 20) (Fin 12) ℚ
  leg_names_ : List String

/-- `BalanceController::BalanceController`: stores the configuration,
sets gravity to `(0, 0, −9.81)` and builds the constant constraint
matrix `C_ = frictionConeConstraint()` once. -/
def mkBalanceController (mu mass fzmin fzmax : ℚ) (Ib : Mat3)
    (S : Matrix (Fin 6) (Fin 6) ℚ) (W : Matrix (Fin 12) (Fin 12) ℚ)
    (kff : Fin 6 → ℚ) (kp_p kd_p kp_w kd_w : V3)
    (leg_names : List String) : BalanceController :=
  { mu_ := mu
    mass_ := mass
    Ib_ := Ib
    g_ := ![0, 0, -(981 / 100)]
    kff_ := kff
    kp_p_ := kp_p
    kd_p_ := kd_p
    kp_w_ := kp_w
    kd_w_ := kd_w
    fzmin_ := fzmin
    fzmax_ := fzmax
    S_ := S
    W_ := W
    C_ := frictionConeConstraint mu
    leg_names_ := leg_names }

/-- `BalanceController::dynamics`: world-frame foot offsets
`com_ft_p = Rwb · ft_p` per column, world-frame inertia
`Iw = Rwb · Ib · Rwbᵀ`, the 6×12 matrix `A` (identity blocks on the
top three rows, skew-symmetric blocks on the bottom three) and the
6-vector `b` (`mass·(xddot_d + g)` on top, `Iw·wdot_d` below).  The
argument `x` is unused, exactly as in the source. -/
def dynamics (mass : ℚ) (Ib : Mat3) (g_ : V3) (ft_p : Fin 4 → V3)
    (Rwb : Mat3) (x xddot_d wdot_d : V3) :
    Matrix (Fin 6) (Fin 12) ℚ × (Fin 6 → ℚ) :=
  let com_ft_p : Fin 4 → V3 := fun k => Rwb *ᵥ ft_p k
  let Iw : Mat3 := Rwb * Ib * Rwbᵀ
  let A : Matrix (Fin 6) (Fin 12) ℚ :=
    setBlock (setBlock (setBlock (setBlock
      (setBlock (setBlock (setBlock (setBlock (0 : Matrix (Fin 6) (Fin 12) ℚ)
        0 0 (1 : Mat3)) 0 3 (1 : Mat3)) 0 6 (1 : Mat3)) 0 9 (1 : Mat3))
      3 0 (skew_symmetric (com_ft_p 0))) 3 3 (skew_symmetric (com_ft_p 1)))
      3 6 (skew_symmetric (com_ft_p 2))) 3 9 (skew_symmetric (com_ft_p 3))
  let b : Fin 6 → ℚ :=
    setRows (setRows (fun _ => 0) 0 (mass • (xddot_d + g_))) 3 (Iw *ᵥ wdot_d)
  (A, b)

/-- Lines 111–114 of `control`: PD feedback on the centre-of-mass
position plus the three feedforward corrections applied as in-place
component updates. -/
def xddotDesired (mass : ℚ) (kff : Fin 6 → ℚ) (kp_p kd_p : V3)
    (x xdot x_d xdot_d : V3) : V3 :=
  let v0 : V3 := kp_p * (x_d - x) + kd_p * (xdot_d - xdot)
  let v1 := Function.update v0 0 (v0 0 + kff 0 * xdot_d 0)
  let v2 := Function.update v1 1 (v1 1 + kff 1 * xdot_d 1)
  Function.update v2 2 (v2 2 + kff 2 * mass * (981 / 100))

/-- Lines 118–122 of `control`: the orientation error rotation
`R_error = Rwb_d · Rwbᵀ`, its total axis-angle vector (computed by
`Rotation3d::angleAxisTotal`, outside this source file, so passed in
as the function `angleAxisTotal`), PD feedback and the angular
feedforward term `kff.rows(3,5) ⊙ w_d`. -/
def wdotDesired (kff : Fin 6 → ℚ) (kp_w kd_w : V3)
    (angleAxisTotal : Mat3 → V3) (Rwb Rwb_d : Mat3) (w w_d : V3) : V3 :=
  let R_error : Mat3 := Rwb_d * Rwbᵀ
  let v0 : V3 := kp_w * angleAxisTotal R_error + kd_w * (w_d - w)
  v0 + (fun i : Fin 3 => kff ⟨(i : ℕ) + 3, by omega⟩) * w_d

/-- The numeric buffers handed to the external QP solver in one cycle:
cost matrix and vector, constraint matrix, the per-variable box bounds
(`nullptr` embedded as `none`), and the constraint bound vectors. -/
structure QPInput where
  Q : Matrix (Fin 12) (Fin 12) ℚ
  c : Fin 12 → ℚ
  C : Matrix (Fin 20) (Fin 12) ℚ
  lb : Option (Fin 12 → ℚ)
  ub : Option (Fin 12 → ℚ)
  lbC : List ℚ
  ubC : List ℚ

/-- The observable behaviour of the qpOASES solver during one cycle:
whether it was already initialised, the return codes of `init` and
`hotstart` (`true` = `SUCCESSFUL_RETURN`), `isSolved()`, and the
primal solution delivered by `getPrimalSolution`. -/
structure SolverOutcome where
  isInitialised : Bool
  initRet : Bool
  hotstartRet : Bool
  isSolved : Bool
  primal : Fin 12 → ℚ

/-- `BalanceController::control`: recompute the gait-dependent bounds
(`none` propagates the `.at` failure on a missing gait entry), run the
feedback law, build the dynamics and the QP cost, call the solver
(cold `init` if not yet initialised, `hotstart` otherwise, returning
the zero vector `fw` on failure, and again on `isSolved() = false`),
then rotate each foot's world-frame solution block into the body frame
with `Rbw = Rwbᵀ` and negate.  The returned pair records the buffers
passed to the solver alongside the returned force vector. -/
def control (bc : BalanceController) (angleAxisTotal : Mat3 → V3)
    (solver : QPInput → SolverOutcome) (ft_p : Fin 4 → V3)
    (Rwb Rwb_d : Mat3) (x xdot w x_d xdot_d w_d : V3)
    (gait_map : GaitMap) : Option (QPInput × (Fin 12 → ℚ)) :=
  match frictionConeBounds gait_map bc.fzmin_ bc.fzmax_ bc.leg_names_ with
  | none => none
  | some (lbC, ubC) =>
    let fw : Fin 12 → ℚ := fun _ => 0
    let xddot_d := xddotDesired bc.mass_ bc.kff_ bc.kp_p_ bc.kd_p_ x xdot x_d xdot_d
    let wdot_d := wdotDesired bc.kff_ bc.kp_w_ bc.kd_w_ angleAxisTotal Rwb Rwb_d w w_d
    let srb_dyn := dynamics bc.mass_ bc.Ib_ bc.g_ ft_p Rwb x xddot_d wdot_d
    let A_dyn := srb_dyn.1
    let b_dyn := srb_dyn.2
    let Q : Matrix (Fin 12) (Fin 12) ℚ := (2 : ℚ) • (A_dynᵀ * bc.S_ * A_dyn + bc.W_)
    let c : Fin 12 → ℚ := (((-2 : ℚ) • A_dynᵀ) * bc.S_) *ᵥ b_dyn
    let qpin : QPInput :=
      { Q := Q, c := c, C := bc.C_, lb := none, ub := none, lbC := lbC, ubC := ubC }
    let out := solver qpin
    let afterSolve : Option (QPInput × (Fin 12 → ℚ)) :=
      if out.isSolved then
        let fw := out.primal
        let Rbw := Rwbᵀ
        let fb : Fin 12 → ℚ :=
          setRows (setRows (setRows (setRows (fun _ => 0)
            0 (Rbw *ᵥ fun r : Fin 3 => fw ⟨0 + (r : ℕ), by omega⟩))
            3 (Rbw *ᵥ fun r : Fin 3 => fw ⟨3 + (r : ℕ), by omega⟩))
            6 (Rbw *ᵥ fun r : Fin 3 => fw ⟨6 + (r : ℕ), by omega⟩))
            9 (Rbw *ᵥ fun r : Fin 3 => fw ⟨9 + (r : ℕ), by omega⟩)
        some (qpin, (-1 : ℚ) • fb)
      else some (qpin, fw)
    if out.isInitialised = false then
      if out.initRet = false then some (qpin, fw) else afterSolve
    else
      if out.hotstartRet = false then some (qpin, fw) else afterSolve

lemma setBlock_apply_mem {m n p q : ℕ} (M : Matrix (Fin m) (Fin n) ℚ)
    (r c : ℕ) (B : Matrix (Fin p) (Fin q) ℚ) (i : Fin m) (j : Fin n)
    (h : r ≤ (i : ℕ) ∧ (i : ℕ) < r + p ∧ c ≤ (j : ℕ) ∧ (j : ℕ) < c + q) :
    setBlock M r c B i j =
      B ⟨(i : ℕ) - r, by omega⟩ ⟨(j : ℕ) - c, by omega⟩ := by
  simp only [setBlock, Matrix.of_apply]
  rw [dif_pos h]

lemma setBlock_apply_notMem {m n p q : ℕ} (M : Matrix (Fin m) (Fin n) ℚ)
    (r c : ℕ) (B : Matrix (Fin p) (Fin q) ℚ) (i : Fin m) (j : Fin n)
    (h : ¬(r ≤ (i : ℕ) ∧ (i : ℕ) < r + p ∧ c ≤ (j : ℕ) ∧ (j : ℕ) < c + q)) :
    setBlock M r c B i j = M i j := by
  simp only [setBlock, Matrix.of_apply]
  rw [dif_neg h]

lemma setRows_apply_mem {n p : ℕ} (v : Fin n → ℚ) (r : ℕ) (w : Fin p → ℚ)
    (i : Fin n) (h : r ≤ (i : ℕ) ∧ (i : ℕ) < r + p) :
    setRows v r w i = w ⟨(i : ℕ) - r, by omega⟩ := by
  simp only [setRows]
  rw [dif_pos h]

lemma setRows_apply_notMem {n p : ℕ} (v : Fin n → ℚ) (r : ℕ) (w : Fin p → ℚ)
    (i : Fin n) (h : ¬(r ≤ (i : ℕ) ∧ (i : ℕ) < r + p)) :
    setRows v r w i = v i := by
  simp only [setRows]
  rw [dif_neg h]

lemma frictionConeBounds_total_spec (gait : GaitMap) (fzmin fzmax : ℚ) :
    ∀ legs : List String, (∀ l ∈ legs, (gait l).isSome) →
    ∃ lb ub, frictionConeBounds gait fzmin fzmax legs = some (lb, ub) ∧
      lb.length = 5 * legs.length ∧ ub.length = 5 * legs.length ∧
      ∀ (k : ℕ) (hk : k < legs.length) (entry : LegState × ℚ),
        gait (legs.get ⟨k, hk⟩) = some entry →
        (lb.drop (5 * k)).take 5 =
            (if entry.1 = LegState.swing then [0, 0, 0, 0, 0]
             else [-1000000, -1000000, 0, 0, fzmin]) ∧
        (ub.drop (5 * k)).take 5 =
            (if entry.1 = LegState.swing then [0, 0, 0, 0, 0]
             else [0, 0, 1000000, 1000000, fzmax]) := by
  intro legs
  induction legs with
  | nil =>
    intro _
    exact ⟨[], [], rfl, rfl, rfl, fun k hk => absurd hk (by simp)⟩
  | cons a rest ih =>
    intro htot
    obtain ⟨ea, hea⟩ : ∃ e, gait a = some e :=
      Option.isSome_iff_exists.mp (htot a (List.mem_cons_self a rest))
    obtain ⟨lb, ub, hfcb, hlbl, hubl, hblk⟩ :=
      ih (fun l hl => htot l (List.mem_cons_of_mem a hl))
    set blkL : List ℚ :=
      if ea.1 = LegState.swing then [0, 0, 0, 0, 0]
      else [-1000000, -1000000, 0, 0, fzmin] with hblkL
    set blkU : List ℚ :=
      if ea.1 = LegState.swing then [0, 0, 0, 0, 0]
      else [0, 0, 1000000, 1000000, fzmax] with hblkU
    have hblkL5 : blkL.length = 5 := by
      rw [hblkL]; by_cases h : ea.1 = LegState.swing <;> simp [h]
    have hblkU5 : blkU.length = 5 := by
      rw [hblkU]; by_cases h : ea.1 = LegState.swing <;> simp [h]
    refine ⟨blkL ++ lb, blkU ++ ub, ?_, ?_, ?_, ?_⟩
    · by_cases h : ea.1 = LegState.swing <;>
        simp [frictionConeBounds, hea, hfcb, h, hblkL, hblkU]
    · simp only [List.length_append, hlbl, hblkL5, List.length_cons]; ring
    · simp only [List.length_append, hubl, hblkU5, List.length_cons]; ring
    · intro k hk entry hent
      match k with
      | 0 =>
        have : entry = ea := by
          have : gait a = some entry := hent
          rw [hea] at this
          exact (Option.some.inj this).symm
        subst this
        constructor
        · simp only [Nat.mul_zero, List.drop_zero]
          rw [show (5 : ℕ) = blkL.length from hblkL5.symm, List.take_left]
        · simp only [Nat.mul_zero, List.drop_zero]
          rw [show (5 : ℕ) = blkU.length from hblkU5.symm, List.take_left]
      | k' + 1 =>
        have hk' : k' < rest.length := by
          simp only [List.length_cons] at hk; omega
        have hent' : gait (rest.get ⟨k', hk'⟩) = some entry := hent
        have hdropL : (blkL ++ lb).drop (5 * (k' + 1)) = lb.drop (5 * k') := by
          rw [show 5 * (k' + 1) = blkL.length + 5 * k' from by rw [hblkL5]; ring,
            List.drop_append]
        have hdropU : (blkU ++ ub).drop (5 * (k' + 1)) = ub.drop (5 * k') := by
          rw [show 5 * (k' + 1) = blkU.length + 5 * k' from by rw [hblkU5]; ring,
            List.drop_append]
        rw [hdropL, hdropU]
        exact hblk k' hk' entry hent'

/-- C1: for a contact schedule with an entry for every configured leg,
`frictionConeBounds` succeeds and yields 20-element lower/upper bound
lists in configured leg order; a stance leg's 5-row block is
`(−10⁶, −10⁶, 0, 0, fzmin)` / `(0, 0, 10⁶, 10⁶, fzmax)` with the
finite sentinel magnitude `1000000`, and a swing leg's block is all
zeros in both vectors. -/
theorem frictionConeBounds_stance_swing_blocks (gait : GaitMap)
    (fzmin fzmax : ℚ) (legs : List String) (hlen : legs.length = 4)
    (htot : ∀ l ∈ legs, (gait l).isSome) :
    ∃ lb ub, frictionConeBounds gait fzmin fzmax legs = some (lb, ub) ∧
      lb.length = 20 ∧ ub.length = 20 ∧
      ∀ (k : ℕ) (hk : k < 4) (entry : LegState × ℚ),
        gait (legs.get ⟨k, by omega⟩) = some entry →
        ((entry.1 = LegState.swing →
            (lb.drop (5 * k)).take 5 = [0, 0, 0, 0, 0] ∧
            (ub.drop (5 * k)).take 5 = [0, 0, 0, 0, 0]) ∧
         (entry.1 ≠ LegState.swing →
            (lb.drop (5 * k)).take 5 = [-1000000, -1000000, 0, 0, fzmin] ∧
            (ub.drop (5 * k)).take 5 = [0, 0, 1000000, 1000000, fzmax])) := by
  obtain ⟨lb, ub, hfcb, hlbl, hubl, hblk⟩ :=
    frictionConeBounds_total_spec gait fzmin fzmax legs htot
  refine ⟨lb, ub, hfcb, by rw [hlbl, hlen], by rw [hubl, hlen], ?_⟩
  intro k hk entry hent
  have hk' : k < legs.length := by omega
  have hb := hblk k hk' entry hent
  constructor
  · intro hsw
    rw [if_pos hsw, if_pos hsw] at hb
    exact hb
  · intro hns
    rw [if_neg hns, if_neg hns] at hb
    exact hb

/-- Concrete four-leg order used by the witnesses. -/
def legsW : List String := ["FL", "FR", "RL", "RR"]

/-- Concrete gait map used by the witnesses: one swing leg, two
stance legs, and one leg with an unexpected third contact state. -/
def gaitW : GaitMap := fun l =>
  if l = "FL" then some (LegState.swing, 0)
  else if l = "FR" then some (LegState.stance, 0)
  else if l = "RL" then some (LegState.extra, 0)
  else if l = "RR" then some (LegState.stance, 0)
  else none

theorem frictionConeBounds_stance_swing_blocks_witness :
    legsW.length = 4 ∧ (∀ l ∈ legsW, (gaitW l).isSome) ∧
    (∃ lb ub, frictionConeBounds gaitW 10 500 legsW = some (lb, ub) ∧
      lb.length = 20 ∧ ub.length = 20 ∧
      ∀ (k : ℕ) (hk : k < 4) (entry : LegState × ℚ),
        gaitW (legsW.get ⟨k, by simp [legsW]; omega⟩) = some entry →
        ((entry.1 = LegState.swing →
            (lb.drop (5 * k)).take 5 = [0, 0, 0, 0, 0] ∧
            (ub.drop (5 * k)).take 5 = [0, 0, 0, 0, 0]) ∧
         (entry.1 ≠ LegState.swing →
            (lb.drop (5 * k)).take 5 = [-1000000, -1000000, 0, 0, (10 : ℚ)] ∧
            (ub.drop (5 * k)).take 5 = [0, 0, 1000000, 1000000, (500 : ℚ)]))) :=
  ⟨by decide, by decide,
    frictionConeBounds_stance_swing_blocks gaitW 10 500 legsW (by decide)
      (by decide)⟩

/-- C8: if the five friction-cone rows of one foot's block all
evaluate to zero — the constraint a swing leg's collapsed `[0, 0]`
bounds impose — then the foot force is identically zero. -/
theorem swing_block_admits_only_zero (mu fx fy fz : ℚ)
    (h : ∀ r : Fin 5, (Cf mu *ᵥ ![fx, fy, fz]) r = 0) :
    fx = 0 ∧ fy = 0 ∧ fz = 0 := by
  have h4 : fz = 0 := by
    have := h 4
    simpa [Cf, Matrix.mulVec, Matrix.dotProduct, Fin.sum_univ_three] using this
  subst h4
  have h0 := h 0
  have h1 := h 1
  simp [Cf, Matrix.mulVec, Matrix.dotProduct, Fin.sum_univ_three] at h0 h1
  exact ⟨h0, h1, rfl⟩

theorem swing_block_admits_only_zero_witness :
    (∀ r : Fin 5, (Cf (1/2) *ᵥ ![0, 0, 0]) r = 0) ∧
    ((0 : ℚ) = 0 ∧ (0 : ℚ) = 0 ∧ (0 : ℚ) = 0) :=
  ⟨by intro r; fin_cases r <;>
      simp [Cf, Matrix.mulVec, Matrix.dotProduct, Fin.sum_univ_three],
   swing_block_admits_only_zero (1/2) 0 0 0
    (by intro r; fin_cases r <;>
      simp [Cf, Matrix.mulVec, Matrix.dotProduct, Fin.sum_univ_three])⟩

/-- C9: a contact schedule missing some configured leg makes the bound
builder surface the lookup failure (the whole computation fails and no
bound vectors are produced). -/
theorem missing_entry_surfaces_failure (gait : GaitMap) (fzmin fzmax : ℚ)
    (legs : List String) (l : String) (hmem : l ∈ legs)
    (hnone : gait l = none) :
    frictionConeBounds gait fzmin fzmax legs = none := by
  induction legs with
  | nil => cases hmem
  | cons a rest ih =>
    rcases List.mem_cons.mp hmem with h | h
    · subst h
      simp [frictionConeBounds, hnone]
    · have hr := ih h
      cases hg : gait a with
      | none => simp [frictionConeBounds, hg]
      | some e => simp [frictionConeBounds, hg, hr]

/-- Concrete gait map whose `"RR"` entry is missing. -/
def gaitMissingW : GaitMap := fun l =>
  if l = "FL" then some (LegState.stance, 0)
  else if l = "FR" then some (LegState.stance, 0)
  else if l = "RL" then some (LegState.stance, 0)
  else none

theorem missing_entry_surfaces_failure_witness :
    "RR" ∈ legsW ∧ gaitMissingW "RR" = none ∧
    frictionConeBounds gaitMissingW 10 500 legsW = none :=
  ⟨by decide, by decide,
    missing_entry_surfaces_failure gaitMissingW 10 500 legsW "RR" (by decide)
      (by decide)⟩

/-- C10: the bound builder only tests for `swing`; any other contact
state — `stance` or any unexpected third value — receives the full
stance bounds. -/
theorem non_swing_gets_stance_bounds (gait : GaitMap) (fzmin fzmax : ℚ)
    (legs : List String) (htot : ∀ l ∈ legs, (gait l).isSome)
    (k : ℕ) (hk : k < legs.length) (entry : LegState × ℚ)
    (hent : gait (legs.get ⟨k, hk⟩) = some entry)
    (hns : entry.1 ≠ LegState.swing) :
    ∃ lb ub, frictionConeBounds gait fzmin fzmax legs = some (lb, ub) ∧
      (lb.drop (5 * k)).take 5 = [-1000000, -1000000, 0, 0, fzmin] ∧
      (ub.drop (5 * k)).take 5 = [0, 0, 1000000, 1000000, fzmax] := by
  obtain ⟨lb, ub, hfcb, _, _, hblk⟩ :=
    frictionConeBounds_total_spec gait fzmin fzmax legs htot
  have hb := hblk k hk entry hent
  rw [if_neg hns, if_neg hns] at hb
  exact ⟨lb, ub, hfcb, hb.1, hb.2⟩

theorem non_swing_gets_stance_bounds_witness :
    (∀ l ∈ legsW, (gaitW l).isSome) ∧
    gaitW (legsW.get ⟨2, by decide⟩) = some (LegState.extra, 0) ∧
    (LegState.extra, (0 : ℚ)).1 ≠ LegState.swing ∧
    (∃ lb ub, frictionConeBounds gaitW 10 500 legsW = some (lb, ub) ∧
      (lb.drop (5 * 2)).take 5 = [-1000000, -1000000, 0, 0, (10 : ℚ)] ∧
      (ub.drop (5 * 2)).take 5 = [0, 0, 1000000, 1000000, (500 : ℚ)]) :=
  ⟨by decide, by decide, by decide,
    non_swing_gets_stance_bounds gaitW 10 500 legsW (by decide) 2 (by decide)
      (LegState.extra, 0) (by decide) (by decide)⟩

/-- The QP buffers `control` hands the solver in a cycle whose bound
computation produced `(lbC, ubC)` (proved equal to what `control`
builds in `control_spec`). -/
def ctrlQPIn (bc : BalanceController) (angleAxisTotal : Mat3 → V3)
    (ft_p : Fin 4 → V3) (Rwb Rwb_d : Mat3) (x xdot w x_d xdot_d w_d : V3)
    (lbC ubC : List ℚ) : QPInput :=
  let xddot_d := xddotDesired bc.mass_ bc.kff_ bc.kp_p_ bc.kd_p_ x xdot x_d xdot_d
  let wdot_d := wdotDesired bc.kff_ bc.kp_w_ bc.kd_w_ angleAxisTotal Rwb Rwb_d w w_d
  let srb_dyn := dynamics bc.mass_ bc.Ib_ bc.g_ ft_p Rwb x xddot_d wdot_d
  let A_dyn := srb_dyn.1
  let b_dyn := srb_dyn.2
  { Q := (2 : ℚ) • (A_dynᵀ * bc.S_ * A_dyn + bc.W_)
    c := (((-2 : ℚ) • A_dynᵀ) * bc.S_) *ᵥ b_dyn
    C := bc.C_
    lb := none
    ub := none
    lbC := lbC
    ubC := ubC }

/-- The force vector `control` returns in such a cycle (proved equal
to what `control` computes in `control_spec`). -/
def ctrlForce (bc : BalanceController) (angleAxisTotal : Mat3 → V3)
    (solver : QPInput → SolverOutcome) (ft_p : Fin 4 → V3)
    (Rwb Rwb_d : Mat3) (x xdot w x_d xdot_d w_d : V3)
    (lbC ubC : List ℚ) : Fin 12 → ℚ :=
  let out := solver (ctrlQPIn bc angleAxisTotal ft_p Rwb Rwb_d x xdot w x_d
    xdot_d w_d lbC ubC)
  let fw0 : Fin 12 → ℚ := fun _ => 0
  let afterSolveForce : Fin 12 → ℚ :=
    if out.isSolved then
      let fw := out.primal
      let Rbw := Rwbᵀ
      let fb : Fin 12 → ℚ :=
        setRows (setRows (setRows (setRows (fun _ => 0)
          0 (Rbw *ᵥ fun r : Fin 3 => fw ⟨0 + (r : ℕ), by omega⟩))
          3 (Rbw *ᵥ fun r : Fin 3 => fw ⟨3 + (r : ℕ), by omega⟩))
          6 (Rbw *ᵥ fun r : Fin 3 => fw ⟨6 + (r : ℕ), by omega⟩))
          9 (Rbw *ᵥ fun r : Fin 3 => fw ⟨9 + (r : ℕ), by omega⟩)
      (-1 : ℚ) • fb
    else fw0
  if out.isInitialised = false then
    if out.initRet = false then fw0 else afterSolveForce
  else
    if out.hotstartRet = false then fw0 else afterSolveForce

lemma control_spec (bc : BalanceController) (angleAxisTotal : Mat3 → V3)
    (solver : QPInput → SolverOutcome) (ft_p : Fin 4 → V3)
    (Rwb Rwb_d : Mat3) (x xdot w x_d xdot_d w_d : V3) (gait_map : GaitMap)
    (lbC ubC : List ℚ)
    (hfb : frictionConeBounds gait_map bc.fzmin_ bc.fzmax_ bc.leg_names_ =
      some (lbC, ubC)) :
    control bc angleAxisTotal solver ft_p Rwb Rwb_d x xdot w x_d xdot_d w_d
        gait_map =
      some (ctrlQPIn bc angleAxisTotal ft_p Rwb Rwb_d x xdot w x_d xdot_d w_d
              lbC ubC,
            ctrlForce bc angleAxisTotal solver ft_p Rwb Rwb_d x xdot w x_d
              xdot_d w_d lbC ubC) := by
  unfold control ctrlForce ctrlQPIn
  rw [hfb]
  dsimp only
  split_ifs <;> rfl

lemma control_none_iff (bc : BalanceController) (angleAxisTotal : Mat3 → V3)
    (solver : QPInput → SolverOutcome) (ft_p : Fin 4 → V3)
    (Rwb Rwb_d : Mat3) (x xdot w x_d xdot_d w_d : V3) (gait_map : GaitMap) :
    control bc angleAxisTotal solver ft_p Rwb Rwb_d x xdot w x_d xdot_d w_d
        gait_map = none ↔
      frictionConeBounds gait_map bc.fzmin_ bc.fzmax_ bc.leg_names_ = none := by
  cases hfb : frictionConeBounds gait_map bc.fzmin_ bc.fzmax_ bc.leg_names_ with
  | none => simp [control, hfb]
  | some b =>
    obtain ⟨lbC, ubC⟩ := b
    rw [control_spec bc angleAxisTotal solver ft_p Rwb Rwb_d x xdot w x_d
      xdot_d w_d gait_map lbC ubC hfb]
    simp

lemma control_some_inv (bc : BalanceController) (angleAxisTotal : Mat3 → V3)
    (solver : QPInput → SolverOutcome) (ft_p : Fin 4 → V3)
    (Rwb Rwb_d : Mat3) (x xdot w x_d xdot_d w_d : V3) (gait_map : GaitMap)
    (qpin : QPInput) (f : Fin 12 → ℚ)
    (hrun : control bc angleAxisTotal solver ft_p Rwb Rwb_d x xdot w x_d
      xdot_d w_d gait_map = some (qpin, f)) :
    ∃ lbC ubC,
      frictionConeBounds gait_map bc.fzmin_ bc.fzmax_ bc.leg_names_ =
        some (lbC, ubC) ∧
      qpin = ctrlQPIn bc angleAxisTotal ft_p Rwb Rwb_d x xdot w x_d xdot_d w_d
        lbC ubC ∧
      f = ctrlForce bc angleAxisTotal solver ft_p Rwb Rwb_d x xdot w x_d
        xdot_d w_d lbC ubC := by
  cases hfb : frictionConeBounds gait_map bc.fzmin_ bc.fzmax_ bc.leg_names_ with
  | none =>
    rw [(control_none_iff bc angleAxisTotal solver ft_p Rwb Rwb_d x xdot w x_d
      xdot_d w_d gait_map).mpr hfb] at hrun
    cases hrun
  | some b =>
    obtain ⟨lbC, ubC⟩ := b
    refine ⟨lbC, ubC, rfl, ?_⟩
    rw [control_spec bc angleAxisTotal solver ft_p Rwb Rwb_d x xdot w x_d
      xdot_d w_d gait_map lbC ubC hfb] at hrun
    have := Option.some.inj hrun
    exact ⟨congrArg Prod.fst this.symm, congrArg Prod.snd this.symm⟩

/-- C2: the 20×12 constraint matrix has the constant 5×3 pyramid block
`(1,0,−μ), (0,1,−μ), (0,1,μ), (1,0,μ), (0,0,1)` at rows `5k..5k+4`,
columns `3k..3k+2` for each foot `k`, is zero everywhere else, is
computed once by the constructor into `C_`, and every `control` cycle
passes exactly that matrix to the solver. -/
theorem frictionConeConstraint_constant_topology (mu mass fzmin fzmax : ℚ)
    (Ib : Mat3) (S : Matrix (Fin 6) (Fin 6) ℚ)
    (W : Matrix (Fin 12) (Fin 12) ℚ) (kff : Fin 6 → ℚ)
    (kp_p kd_p kp_w kd_w : V3) (leg_names : List String) :
    (∀ (k : Fin 4) (r : Fin 5) (c : Fin 3),
        frictionConeConstraint mu
          ⟨5 * (k : ℕ) + (r : ℕ), by have := k.isLt; have := r.isLt; omega⟩
          ⟨3 * (k : ℕ) + (c : ℕ), by have := k.isLt; have := c.isLt; omega⟩ =
        Matrix.of ![![1, 0, -mu], ![0, 1, -mu], ![0, 1, mu], ![1, 0, mu],
          ![0, 0, 1]] r c) ∧
    (∀ (i : Fin 20) (j : Fin 12), (i : ℕ) / 5 ≠ (j : ℕ) / 3 →
        frictionConeConstraint mu i j = 0) ∧
    (mkBalanceController mu mass fzmin fzmax Ib S W kff kp_p kd_p kp_w kd_w
        leg_names).C_ = frictionConeConstraint mu ∧
    (∀ (angleAxisTotal : Mat3 → V3) (solver : QPInput → SolverOutcome)
        (ft_p : Fin 4 → V3) (Rwb Rwb_d : Mat3) (x xdot w x_d xdot_d w_d : V3)
        (gait_map : GaitMap) (qpin : QPInput) (f : Fin 12 → ℚ),
        control (mkBalanceController mu mass fzmin fzmax Ib S W kff kp_p kd_p
            kp_w kd_w leg_names) angleAxisTotal solver ft_p Rwb Rwb_d x xdot
            w x_d xdot_d w_d gait_map = some (qpin, f) →
        qpin.C = frictionConeConstraint mu) := by
  refine ⟨?_, ?_, rfl, ?_⟩
  · intro k r c
    have hr := r.isLt
    have hc := c.isLt
    fin_cases k <;>
      (rcases r with ⟨r, _⟩; rcases c with ⟨c, _⟩) <;>
      simp only [frictionConeConstraint, setBlock, Matrix.of_apply,
        Fin.val_mk] <;>
      norm_num <;>
      (repeat rw [dif_neg (by omega)]) <;>
      rw [dif_pos (by omega)] <;>
      simp [Cf]
  · intro i j h
    rcases i with ⟨i, hi⟩
    rcases j with ⟨j, hj⟩
    simp only [Fin.val_mk] at h
    simp only [frictionConeConstraint, setBlock, Matrix.of_apply, Fin.val_mk]
    rw [dif_neg (by omega), dif_neg (by omega), dif_neg (by omega),
      dif_neg (by omega)]
    rfl
  · intro angleAxisTotal solver ft_p Rwb Rwb_d x xdot w x_d xdot_d w_d
      gait_map qpin f hrun
    obtain ⟨lbC, ubC, _, hq, -⟩ := control_some_inv _ angleAxisTotal solver
      ft_p Rwb Rwb_d x xdot w x_d xdot_d w_d gait_map qpin f hrun
    rw [hq]
    rfl

/-- Concrete configuration used by the `control`-level witnesses. -/
def kffW : Fin 6 → ℚ := fun _ => 0

/-- A concrete controller built by the constructor. -/
def bcW : BalanceController :=
  mkBalanceController (1/2) 10 10 500 1 1 1 kffW 0 0 0 0 legsW

/-- A concrete stand-in for the axis-angle conversion. -/
def aaW : Mat3 → V3 := fun _ => 0

/-- A solver behaviour for the witnesses: cold start, successful
return, problem solved, zero primal solution. -/
def solverW : QPInput → SolverOutcome := fun _ =>
  { isInitialised := false
    initRet := true
    hotstartRet := true
    isSolved := true
    primal := fun _ => 0 }

/-- A solver behaviour whose cold initialization fails. -/
def solverFailW : QPInput → SolverOutcome := fun _ =>
  { isInitialised := false
    initRet := false
    hotstartRet := true
    isSolved := false
    primal := fun _ => 0 }

/-- The bound lists `frictionConeBounds` produces for `gaitW` with
`fzmin = 10`, `fzmax = 500` (swing, stance, extra, stance). -/
def lbW : List ℚ :=
  [0, 0, 0, 0, 0, -1000000, -1000000, 0, 0, 10, -1000000, -1000000, 0, 0, 10,
   -1000000, -1000000, 0, 0, 10]

def ubW : List ℚ :=
  [0, 0, 0, 0, 0, 0, 0, 1000000, 1000000, 500, 0, 0, 1000000, 1000000, 500,
   0, 0, 1000000, 1000000, 500]

lemma fcbW : frictionConeBounds gaitW 10 500 legsW = some (lbW, ubW) := by
  simp [frictionConeBounds, gaitW, legsW, lbW, ubW]

theorem frictionConeConstraint_constant_topology_witness :
    frictionConeConstraint (1/2)
        ⟨5, by omega⟩ ⟨5, by omega⟩ = -(1/2) ∧
    frictionConeConstraint (1/2) ⟨0, by omega⟩ ⟨11, by omega⟩ = 0 ∧
    bcW.C_ = frictionConeConstraint (1/2) ∧
    (∃ qpin f,
      control bcW aaW solverW (fun _ => 0) 1 1 0 0 0 0 0 0 gaitW =
        some (qpin, f) ∧
      qpin.C = frictionConeConstraint (1/2)) := by
  have H := frictionConeConstraint_constant_topology (1/2) 10 10 500 1 1 1
    kffW 0 0 0 0 legsW
  refine ⟨?_, H.2.1 ⟨0, by omega⟩ ⟨11, by omega⟩ (by norm_num), H.2.2.1, ?_⟩
  · have := H.1 1 0 2
    simpa using this
  · have hrun := control_spec bcW aaW solverW (fun _ => 0) 1 1 0 0 0 0 0 0
      gaitW lbW ubW fcbW
    exact ⟨_, _, hrun,
      H.2.2.2 aaW solverW (fun _ => 0) 1 1 0 0 0 0 0 0 gaitW _ _ hrun⟩

/-- C4: the dynamics builder returns `A` with `[I, I, I, I]` on its top
three rows and the skew-symmetric matrix of each foot's world-frame
offset `Rwb·p_k` as the bottom 3×3 block of foot `k`, and `b` with
`mass·(xddot_d + g)` on top (gravity `(0, 0, −9.81)`) and
`(Rwb·Ib·Rwbᵀ)·wdot_d` below. -/
theorem dynamics_structure (mass : ℚ) (Ib : Mat3) (ft_p : Fin 4 → V3)
    (Rwb : Mat3) (x xddot_d wdot_d : V3) :
    (∀ (i : Fin 3) (k : Fin 4) (j : Fin 3),
        (dynamics mass Ib ![0, 0, -(981/100)] ft_p Rwb x xddot_d wdot_d).1
            ⟨(i : ℕ), by have := i.isLt; omega⟩
            ⟨3 * (k : ℕ) + (j : ℕ), by have := k.isLt; have := j.isLt; omega⟩ =
          (1 : Mat3) i j ∧
        (dynamics mass Ib ![0, 0, -(981/100)] ft_p Rwb x xddot_d wdot_d).1
            ⟨3 + (i : ℕ), by have := i.isLt; omega⟩
            ⟨3 * (k : ℕ) + (j : ℕ), by have := k.isLt; have := j.isLt; omega⟩ =
          skew_symmetric (Rwb *ᵥ ft_p k) i j) ∧
    (∀ i : Fin 3,
        (dynamics mass Ib ![0, 0, -(981/100)] ft_p Rwb x xddot_d wdot_d).2
            ⟨(i : ℕ), by have := i.isLt; omega⟩ =
          mass * (xddot_d i + ![0, 0, -(981/100)] i) ∧
        (dynamics mass Ib ![0, 0, -(981/100)] ft_p Rwb x xddot_d wdot_d).2
            ⟨3 + (i : ℕ), by have := i.isLt; omega⟩ =
          ((Rwb * Ib * Rwbᵀ) *ᵥ wdot_d) i) := by
  constructor
  · intro i k j
    have hi := i.isLt
    have hj := j.isLt
    constructor
    · fin_cases k <;>
        (rcases i with ⟨i, _⟩; rcases j with ⟨j, _⟩) <;>
        simp only [dynamics, setBlock, Matrix.of_apply, Fin.val_mk] <;>
        norm_num <;>
        (repeat rw [dif_neg (by omega)]) <;>
        rw [dif_pos (by omega)] <;>
        simp [Matrix.one_apply, Fin.ext_iff] <;>
        exact if_congr (by omega) rfl rfl
    · fin_cases k <;>
        (rcases i with ⟨i, _⟩; rcases j with ⟨j, _⟩) <;>
        simp only [dynamics, setBlock, Matrix.of_apply, Fin.val_mk] <;>
        norm_num <;>
        (repeat rw [dif_neg (by omega)]) <;>
        rw [dif_pos (by omega)] <;>
        (congr 1 <;> exact Fin.ext (by omega))
  · intro i
    have hi := i.isLt
    constructor
    · rcases i with ⟨i, _⟩
      simp only [dynamics, setRows, Fin.val_mk]
      rw [dif_neg (by omega), dif_pos (by omega)]
      simp only [Pi.smul_apply, Pi.add_apply, smul_eq_mul]
      congr 1 <;> try exact congrArg _ (Fin.ext (by omega))
    · rcases i with ⟨i, _⟩
      simp only [dynamics, setRows, Fin.val_mk]
      rw [dif_pos (by omega)]
      congr 1
      exact Fin.ext (by simp only [Fin.val_mk]; omega)

/-- C5: the feedback law is a pure function of the cycle's inputs:
the desired linear acceleration is `kp_p ⊙ (x_d − x) + kd_p ⊙
(xdot_d − xdot)` plus the feedforward terms `kff₀·xdot_d₀` on x,
`kff₁·xdot_d₁` on y and `kff₂·mass·9.81` on z; the orientation error
is the total axis-angle vector of `Rwb_d · Rwbᵀ`; the desired angular
acceleration is `kp_w ⊙ err + kd_w ⊙ (w_d − w) + kff₃..₅ ⊙ w_d`. -/
theorem feedback_law_closed_form (mass : ℚ) (kff : Fin 6 → ℚ)
    (kp_p kd_p kp_w kd_w : V3) (angleAxisTotal : Mat3 → V3)
    (Rwb Rwb_d : Mat3) (x xdot w x_d xdot_d w_d : V3) :
    (∀ i : Fin 3,
        xddotDesired mass kff kp_p kd_p x xdot x_d xdot_d i =
          kp_p i * (x_d i - x i) + kd_p i * (xdot_d i - xdot i) +
            (if i = 0 then kff 0 * xdot_d 0
             else if i = 1 then kff 1 * xdot_d 1
             else kff 2 * mass * (981 / 100))) ∧
    (∀ i : Fin 3,
        wdotDesired kff kp_w kd_w angleAxisTotal Rwb Rwb_d w w_d i =
          kp_w i * angleAxisTotal (Rwb_d * Rwbᵀ) i + kd_w i * (w_d i - w i) +
            kff ⟨(i : ℕ) + 3, by have := i.isLt; omega⟩ * w_d i) := by
  constructor
  · intro i
    fin_cases i <;>
      simp [xddotDesired, Function.update, Fin.ext_iff] <;> ring
  · intro i
    simp [wdotDesired]

lemma cost_vector_eq (A : Matrix (Fin 6) (Fin 12) ℚ)
    (S : Matrix (Fin 6) (Fin 6) ℚ) (b : Fin 6 → ℚ) :
    (((-2 : ℚ) • Aᵀ) * S) *ᵥ b = (-2 : ℚ) • (Aᵀ *ᵥ (S *ᵥ b)) := by
  rw [Matrix.smul_mul, Matrix.smul_mulVec_assoc, ← Matrix.mulVec_mulVec]

/-- C3: every cycle's QP cost passed to the solver is assembled from
the dynamics data as `Q = 2·(Aᵀ·S·A + W)` and `c = −2·Aᵀ·S·b`, and the
per-variable box bound buffers handed to the solver are both null. -/
theorem qp_cost_assembly (bc : BalanceController)
    (angleAxisTotal : Mat3 → V3) (solver : QPInput → SolverOutcome)
    (ft_p : Fin 4 → V3) (Rwb Rwb_d : Mat3) (x xdot w x_d xdot_d w_d : V3)
    (gait_map : GaitMap) (qpin : QPInput) (f : Fin 12 → ℚ)
    (hrun : control bc angleAxisTotal solver ft_p Rwb Rwb_d x xdot w x_d
      xdot_d w_d gait_map = some (qpin, f)) :
    qpin.Q =
      (2 : ℚ) • ((dynamics bc.mass_ bc.Ib_ bc.g_ ft_p Rwb x
          (xddotDesired bc.mass_ bc.kff_ bc.kp_p_ bc.kd_p_ x xdot x_d xdot_d)
          (wdotDesired bc.kff_ bc.kp_w_ bc.kd_w_ angleAxisTotal Rwb Rwb_d w
            w_d)).1ᵀ * bc.S_ *
        (dynamics bc.mass_ bc.Ib_ bc.g_ ft_p Rwb x
          (xddotDesired bc.mass_ bc.kff_ bc.kp_p_ bc.kd_p_ x xdot x_d xdot_d)
          (wdotDesired bc.kff_ bc.kp_w_ bc.kd_w_ angleAxisTotal Rwb Rwb_d w
            w_d)).1 + bc.W_) ∧
    qpin.c =
      (-2 : ℚ) • ((dynamics bc.mass_ bc.Ib_ bc.g_ ft_p Rwb x
          (xddotDesired bc.mass_ bc.kff_ bc.kp_p_ bc.kd_p_ x xdot x_d xdot_d)
          (wdotDesired bc.kff_ bc.kp_w_ bc.kd_w_ angleAxisTotal Rwb Rwb_d w
            w_d)).1ᵀ *ᵥ
        (bc.S_ *ᵥ (dynamics bc.mass_ bc.Ib_ bc.g_ ft_p Rwb x
          (xddotDesired bc.mass_ bc.kff_ bc.kp_p_ bc.kd_p_ x xdot x_d xdot_d)
          (wdotDesired bc.kff_ bc.kp_w_ bc.kd_w_ angleAxisTotal Rwb Rwb_d w
            w_d)).2)) ∧
    qpin.lb = none ∧ qpin.ub = none := by
  obtain ⟨lbC, ubC, hfb, hq, -⟩ := control_some_inv bc angleAxisTotal solver
    ft_p Rwb Rwb_d x xdot w x_d xdot_d w_d gait_map qpin f hrun
  subst hq
  exact ⟨rfl, cost_vector_eq _ _ _, rfl, rfl⟩

theorem qp_cost_assembly_witness :
    ∃ qpin f,
      control bcW aaW solverW (fun _ => 0) 1 1 0 0 0 0 0 0 gaitW =
        some (qpin, f) ∧
      (qpin.Q =
        (2 : ℚ) • ((dynamics bcW.mass_ bcW.Ib_ bcW.g_ (fun _ => 0) 1 0
            (xddotDesired bcW.mass_ bcW.kff_ bcW.kp_p_ bcW.kd_p_ 0 0 0 0)
            (wdotDesired bcW.kff_ bcW.kp_w_ bcW.kd_w_ aaW 1 1 0 0)).1ᵀ *
            bcW.S_ *
          (dynamics bcW.mass_ bcW.Ib_ bcW.g_ (fun _ => 0) 1 0
            (xddotDesired bcW.mass_ bcW.kff_ bcW.kp_p_ bcW.kd_p_ 0 0 0 0)
            (wdotDesired bcW.kff_ bcW.kp_w_ bcW.kd_w_ aaW 1 1 0 0)).1 +
          bcW.W_) ∧
      qpin.c =
        (-2 : ℚ) • ((dynamics bcW.mass_ bcW.Ib_ bcW.g_ (fun _ => 0) 1 0
            (xddotDesired bcW.mass_ bcW.kff_ bcW.kp_p_ bcW.kd_p_ 0 0 0 0)
            (wdotDesired bcW.kff_ bcW.kp_w_ bcW.kd_w_ aaW 1 1 0 0)).1ᵀ *ᵥ
          (bcW.S_ *ᵥ (dynamics bcW.mass_ bcW.Ib_ bcW.g_ (fun _ => 0) 1 0
            (xddotDesired bcW.mass_ bcW.kff_ bcW.kp_p_ bcW.kd_p_ 0 0 0 0)
            (wdotDesired bcW.kff_ bcW.kp_w_ bcW.kd_w_ aaW 1 1 0 0)).2)) ∧
      qpin.lb = none ∧ qpin.ub = none) := by
  have hrun := control_spec bcW aaW solverW (fun _ => 0) 1 1 0 0 0 0 0 0
    gaitW lbW ubW fcbW
  exact ⟨_, _, hrun, qp_cost_assembly bcW aaW solverW (fun _ => 0) 1 1 0 0 0
    0 0 0 gaitW _ _ hrun⟩

/-- C6: whenever the cold initialization fails, the hotstart fails, or
the solver reports the problem not solved, `control` returns the
all-zero 12-vector (the world-to-body rotation and negation are never
applied), and no failure escapes the controller: the call still
returns a value. -/
theorem solver_failure_returns_zero (bc : BalanceController)
    (angleAxisTotal : Mat3 → V3) (solver : QPInput → SolverOutcome)
    (ft_p : Fin 4 → V3) (Rwb Rwb_d : Mat3) (x xdot w x_d xdot_d w_d : V3)
    (gait_map : GaitMap) (qpin : QPInput) (f : Fin 12 → ℚ)
    (hrun : control bc angleAxisTotal solver ft_p Rwb Rwb_d x xdot w x_d
      xdot_d w_d gait_map = some (qpin, f))
    (hfail :
      ((solver qpin).isInitialised = false ∧ (solver qpin).initRet = false) ∨
      ((solver qpin).isInitialised = true ∧
        (solver qpin).hotstartRet = false) ∨
      (solver qpin).isSolved = false) :
    f = fun _ => 0 := by
  obtain ⟨lbC, ubC, hfb, hq, hf⟩ := control_some_inv bc angleAxisTotal solver
    ft_p Rwb Rwb_d x xdot w x_d xdot_d w_d gait_map qpin f hrun
  subst hq
  rw [hf]
  unfold ctrlForce
  rcases hfail with ⟨h1, h2⟩ | ⟨h1, h2⟩ | h1
  · simp [h1, h2]
  · simp [h1, h2]
  · simp only [h1, Bool.false_eq_true, if_false]
    split_ifs <;> rfl

theorem solver_failure_returns_zero_witness :
    (∃ qpin f,
      control bcW aaW solverFailW (fun _ => 0) 1 1 0 0 0 0 0 0 gaitW =
        some (qpin, f) ∧
      (((solverFailW qpin).isInitialised = false ∧
          (solverFailW qpin).initRet = false) ∨
        ((solverFailW qpin).isInitialised = true ∧
          (solverFailW qpin).hotstartRet = false) ∨
        (solverFailW qpin).isSolved = false) ∧
      f = fun _ => 0) := by
  have hrun := control_spec bcW aaW solverFailW (fun _ => 0) 1 1 0 0 0 0 0 0
    gaitW lbW ubW fcbW
  refine ⟨_, _, hrun, Or.inl ⟨rfl, rfl⟩, ?_⟩
  exact solver_failure_returns_zero bcW aaW solverFailW (fun _ => 0) 1 1 0 0
    0 0 0 0 gaitW _ _ hrun (Or.inl ⟨rfl, rfl⟩)

lemma sum_sq_eq_dot (w : V3) : ∑ r : Fin 3, (w r) ^ 2 = w ⬝ᵥ w := by
  simp [Matrix.dotProduct, sq]

lemma orth_sq_norm (R : Mat3) (hR : R * Rᵀ = 1) (v : V3) :
    ∑ r : Fin 3, ((Rᵀ *ᵥ v) r) ^ 2 = ∑ r : Fin 3, (v r) ^ 2 := by
  rw [sum_sq_eq_dot, sum_sq_eq_dot, Matrix.dotProduct_mulVec,
    Matrix.vecMul_transpose, Matrix.mulVec_mulVec, hR, Matrix.one_mulVec]

set_option maxHeartbeats 1000000 in
/-- C7: on a successful solve, each foot's returned block is
`−Rwbᵀ · (f_world block)`, and when `Rwb` is orthogonal this transform
preserves each foot block's (squared) norm. -/
theorem success_transform_isometry (bc : BalanceController)
    (angleAxisTotal : Mat3 → V3) (solver : QPInput → SolverOutcome)
    (ft_p : Fin 4 → V3) (Rwb Rwb_d : Mat3) (x xdot w x_d xdot_d w_d : V3)
    (gait_map : GaitMap) (qpin : QPInput) (f : Fin 12 → ℚ)
    (hrun : control bc angleAxisTotal solver ft_p Rwb Rwb_d x xdot w x_d
      xdot_d w_d gait_map = some (qpin, f))
    (hret :
      ((solver qpin).isInitialised = false ∧ (solver qpin).initRet = true) ∨
      ((solver qpin).isInitialised = true ∧ (solver qpin).hotstartRet = true))
    (hsolved : (solver qpin).isSolved = true) :
    (∀ (k : Fin 4) (r : Fin 3),
      f ⟨3 * (k : ℕ) + (r : ℕ), by have := k.isLt; have := r.isLt; omega⟩ =
        -((Rwbᵀ *ᵥ fun s : Fin 3 => (solver qpin).primal
            ⟨3 * (k : ℕ) + (s : ℕ),
              by have := k.isLt; have := s.isLt; omega⟩) r)) ∧
    (Rwb * Rwbᵀ = 1 → ∀ k : Fin 4,
      ∑ r : Fin 3,
        (f ⟨3 * (k : ℕ) + (r : ℕ),
          by have := k.isLt; have := r.isLt; omega⟩) ^ 2 =
      ∑ r : Fin 3,
        ((solver qpin).primal ⟨3 * (k : ℕ) + (r : ℕ),
          by have := k.isLt; have := r.isLt; omega⟩) ^ 2) := by
  obtain ⟨lbC, ubC, hfb, hq, hf⟩ := control_some_inv bc angleAxisTotal solver
    ft_p Rwb Rwb_d x xdot w x_d xdot_d w_d gait_map qpin f hrun
  subst hq
  have key : ∀ (k : Fin 4) (r : Fin 3),
      f ⟨3 * (k : ℕ) + (r : ℕ), by have := k.isLt; have := r.isLt; omega⟩ =
        -((Rwbᵀ *ᵥ fun s : Fin 3 =>
            (solver (ctrlQPIn bc angleAxisTotal ft_p Rwb Rwb_d x xdot w x_d
              xdot_d w_d lbC ubC)).primal
            ⟨3 * (k : ℕ) + (s : ℕ),
              by have := k.isLt; have := s.isLt; omega⟩) r) := by
    intro k r
    rw [hf]
    unfold ctrlForce
    rcases hret with ⟨h1, h2⟩ | ⟨h1, h2⟩ <;>
      simp only [h1, h2, hsolved, Bool.true_eq_false, if_true, if_false,
        ite_true, ite_false, Bool.false_eq_true] <;>
      (fin_cases k <;> rcases r with ⟨r, hr⟩) <;>
      simp only [Fin.val_mk, Fin.isValue] <;>
      norm_num <;>
      simp only [Pi.smul_apply, setRows, smul_eq_mul, neg_one_mul] <;>
      (repeat rw [dif_neg (by omega)]) <;>
      rw [dif_pos (by omega)] <;>
      (congr 1 <;> first | rfl | exact Fin.ext (by simp only [Fin.val_mk]; omega))
  refine ⟨key, ?_⟩
  intro hR k
  have hsum : ∀ r : Fin 3,
      (f ⟨3 * (k : ℕ) + (r : ℕ),
        by have := k.isLt; have := r.isLt; omega⟩) ^ 2 =
      ((Rwbᵀ *ᵥ fun s : Fin 3 =>
          (solver (ctrlQPIn bc angleAxisTotal ft_p Rwb Rwb_d x xdot w x_d
            xdot_d w_d lbC ubC)).primal
          ⟨3 * (k : ℕ) + (s : ℕ),
            by have := k.isLt; have := s.isLt; omega⟩) r) ^ 2 := by
    intro r
    rw [key k r, neg_sq]
  calc ∑ r : Fin 3,
        (f ⟨3 * (k : ℕ) + (r : ℕ),
          by have := k.isLt; have := r.isLt; omega⟩) ^ 2
      = ∑ r : Fin 3,
        ((Rwbᵀ *ᵥ fun s : Fin 3 =>
          (solver (ctrlQPIn bc angleAxisTotal ft_p Rwb Rwb_d x xdot w x_d
            xdot_d w_d lbC ubC)).primal
          ⟨3 * (k : ℕ) + (s : ℕ),
            by have := k.isLt; have := s.isLt; omega⟩) r) ^ 2 :=
        Finset.sum_congr rfl fun r _ => hsum r
    _ = ∑ r : Fin 3,
        ((solver (ctrlQPIn bc angleAxisTotal ft_p Rwb Rwb_d x xdot w x_d
            xdot_d w_d lbC ubC)).primal
          ⟨3 * (k : ℕ) + (r : ℕ),
            by have := k.isLt; have := r.isLt; omega⟩) ^ 2 :=
        orth_sq_norm Rwb hR _

theorem success_transform_isometry_witness :
    ∃ qpin f,
      control bcW aaW solverW (fun _ => 0) 1 1 0 0 0 0 0 0 gaitW =
        some (qpin, f) ∧
      (solverW qpin).isInitialised = false ∧ (solverW qpin).initRet = true ∧
      (solverW qpin).isSolved = true ∧
      (1 : Mat3) * (1 : Mat3)ᵀ = 1 ∧
      f ⟨3 * 0 + 1, by norm_num⟩ =
        -(((1 : Mat3)ᵀ *ᵥ fun s : Fin 3 => (solverW qpin).primal
            ⟨3 * 0 + (s : ℕ), by have := s.isLt; omega⟩) 1) ∧
      ∑ r : Fin 3,
          (f ⟨3 * 0 + (r : ℕ), by have := r.isLt; omega⟩) ^ 2 =
        ∑ r : Fin 3,
          ((solverW qpin).primal
            ⟨3 * 0 + (r : ℕ), by have := r.isLt; omega⟩) ^ 2 := by
  have hrun := control_spec bcW aaW solverW (fun _ => 0) 1 1 0 0 0 0 0 0
    gaitW lbW ubW fcbW
  have H := success_transform_isometry bcW aaW solverW (fun _ => 0) 1 1 0 0 0
    0 0 0 gaitW _ _ hrun (Or.inl ⟨rfl, rfl⟩) rfl
  exact ⟨_, _, hrun, rfl, rfl, rfl, by simp, H.1 0 1, H.2 (by simp) 0⟩

end QuadrupedController
